import Mathlib

/-!
Verification of the fund-relay orchestration engine in `xmr/Mixer.py`
(Monero-Transaction-Obfuscator): the sequential "Domino" relay strategy
(`DominoMixer`) and the fan-out/fan-in "Leafway" relay strategy
(`LeafwayMixer`).

The embedding is shallow.  Wallet sessions are abstracted as oracles: an
environment supplies, for each step, the fee quote, the balance, and the
outcome of each send attempt.  Monetary values (Python floats) are embedded
as rationals.  A run is a pure function from the environment to the list of
observable events (fee queries, balance queries, send attempts) together
with an `Except` result mirroring Python's raised exceptions.  Python's
division, which raises `ZeroDivisionError` on a zero divisor, is embedded
as a fallible operation.
-/

namespace XmrMixer

/-- Modelled from the spec: the exception taxonomy of `xmr/exceptions.py`
is absent from the source tree, and the spec (§7) distinguishes the
retryable transaction-level error from capability-level session failures,
which are not transaction errors and are never retried.  Accordingly this
is the outcome of a single `WalletSession.send` attempt as observed by the
retry loops in `Mixer.py`: the send succeeds, it raises the
`TransactionException` that the loops catch, or it raises some other
(session/capability-level) exception that the loops do not catch. -/
inductive SendOutcome
  | ok
  | txError
  | sessionError
deriving DecidableEq, Repr

/-- The exceptions a mixer run can surface to its caller.
`insufficientFunds i` is the `TransactionException("Not enough balance for
transfer + fee")` raised by the preflight check at (0-indexed) step `i`;
`relayExhausted src dst n` is the `TransactionException("Failed to send
from {src} to {dst} after {n} attempts")` raised by Domino's `for/else`;
`sessionFailure src dst` is a non-transaction exception propagating out of
a send from `src` to `dst`; `zeroDivision` is Python's
`ZeroDivisionError`. -/
inductive Failure
  | insufficientFunds (hop : Nat)
  | relayExhausted (src dst : String) (attempts : Nat)
  | sessionFailure (src dst : String)
  | zeroDivision
deriving DecidableEq, Repr

/-- Observable events of a run: fee-quote queries, balance queries, and
individual send attempts (with source address, destination address, the
amount passed to `send`, and that attempt's outcome). -/
inductive Event
  | feeQuery (addr : String)
  | balanceQuery (addr : String)
  | sendAttempt (src dst : String) (amount : Rat) (outcome : SendOutcome)
deriving DecidableEq, Repr

/-- Whether an event is a send attempt. -/
def Event.isSendAttempt : Event → Bool
  | .sendAttempt _ _ _ _ => true
  | _ => false

/-- The send attempts contained in a trace. -/
def sendEvents (t : List Event) : List Event :=
  t.filter Event.isSendAttempt

/-- Result of a bounded retry loop (`for attempt in range(max_attempts)`):
either some attempt succeeded (`break`), or all iterations were used up
with `TransactionException`s (`for/else` falls through), or an uncaught
exception aborted the loop. -/
inductive RetryResult
  | success
  | exhausted
  | fatal
deriving DecidableEq, Repr

/-- The bounded retry loop shared by both mixers: starting at attempt
index `a` with `n` iterations left, call `send`; on success stop, on a
`TransactionException` sleep and retry, on any other exception abort.
Returns the outcomes of the attempts actually made, in order, and how the
loop ended. -/
def retryGo (send : Nat → SendOutcome) : Nat → Nat → List SendOutcome × RetryResult
  | _, 0 => ([], .exhausted)
  | a, n + 1 =>
    match send a with
    | .ok => ([.ok], .success)
    | .txError =>
      let r := retryGo send (a + 1) n
      (.txError :: r.1, r.2)
    | .sessionError => ([.sessionError], .fatal)

/-- `TRANSFER_APPROX_MINS = 25`, the module-level settle-window constant of
`Mixer.py` (minutes). -/
def TRANSFER_APPROX_MINS : Nat := 25

/-- Oracle environment for a Domino run: for each 0-indexed hop, the fee
quote, the balance of the current holder, and the outcome of each send
attempt at that hop. -/
structure DominoEnv where
  fee : Nat → Rat
  balance : Nat → Rat
  send : Nat → Nat → SendOutcome

namespace DominoMixer

/-- `DominoMixer.transfersN = 1 + len(self._chain.middlemen)`. -/
def transfersN (middlemenCount : Nat) : Nat := 1 + middlemenCount

/-- `DominoMixer.approxMinutes = self.transfersN * TRANSFER_APPROX_MINS`. -/
def approxMinutes (middlemenCount : Nat) : Nat :=
  transfersN middlemenCount * TRANSFER_APPROX_MINS

/-- The hop loop of `DominoMixer.start`: with current holder `cur` and
remaining path `next :: rest` at hop index `i`, query fee and balance,
preflight-check `balance < amount + fee * (transfersN - i)`, then run the
retry loop; on `for/else` fall-through raise `relayExhausted`, on an
uncaught exception propagate it, on success settle-sleep and advance to
the next hop. -/
def startGo (env : DominoEnv) (amount : Rat) (maxAttempts totalHops : Nat) :
    String → List String → Nat → List Event × Except Failure Unit
  | _, [], _ => ([], .ok ())
  | cur, next :: rest, i =>
    let transferFee := env.fee i
    let balance := env.balance i
    let queries : List Event := [.feeQuery cur, .balanceQuery cur]
    if balance < amount + transferFee * ((totalHops - i : Nat) : Rat) then
      (queries, .error (.insufficientFunds i))
    else
      let r := retryGo (env.send i) 0 maxAttempts
      let attempts := r.1.map fun o => Event.sendAttempt cur next amount o
      match r.2 with
      | .success =>
        let t := startGo env amount maxAttempts totalHops next rest (i + 1)
        (queries ++ attempts ++ t.1, t.2)
      | .exhausted =>
        (queries ++ attempts, .error (.relayExhausted cur next maxAttempts))
      | .fatal =>
        (queries ++ attempts, .error (.sessionFailure cur next))

/-- `DominoMixer.start(amount, max_attempts)`: walk
`path = middlemen + [to_wallet]` from the source wallet, hop by hop. -/
def start (env : DominoEnv) (fromAddr : String) (middlemen : List String)
    (toAddr : String) (amount : Rat) (maxAttempts : Nat) :
    List Event × Except Failure Unit :=
  startGo env amount maxAttempts (transfersN middlemen.length) fromAddr
    (middlemen ++ [toAddr]) 0

end DominoMixer

/-- Python division `a / n` of a float by an int: raises
`ZeroDivisionError` when `n = 0`, otherwise yields the quotient. -/
def pyDiv (a : Rat) (n : Nat) : Except Failure Rat :=
  if n = 0 then .error .zeroDivision else .ok (a / (n : Rat))

/-- Oracle environment for a Leafway run: fee and balance of the source
session, the outcome of each fan-out send attempt (per middleman index,
per attempt), fee and balance of each middleman's fan-in session, and the
outcome of each fan-in send attempt. -/
structure LeafwayEnv where
  srcFee : Rat
  srcBalance : Rat
  fanoutSend : Nat → Nat → SendOutcome
  midFee : Nat → Rat
  midBalance : Nat → Rat
  faninSend : Nat → Nat → SendOutcome

namespace LeafwayMixer

/-- `LeafwayMixer.transfersN = len(self._chain.middlemen) * 2`. -/
def transfersN (middlemenCount : Nat) : Nat := middlemenCount * 2

/-- `LeafwayMixer.approxMinutes = TRANSFER_APPROX_MINS +
len(self._chain.middlemen) * 15`. -/
def approxMinutes (middlemenCount : Nat) : Nat :=
  TRANSFER_APPROX_MINS + middlemenCount * 15

/-- The fan-out loop of `LeafwayMixer.start`: for each middleman, run the
retry loop on sends from the source.  The source's `for` loop has no
`else` clause, so an exhausted leg falls through silently (the loop prints
the success message and continues with the next middleman); an uncaught
exception propagates and aborts the run. -/
def fanoutGo (env : LeafwayEnv) (fromAddr : String) (transferAmount : Rat)
    (maxAttempts : Nat) : Nat → List String → List Event × Except Failure Unit
  | _, [] => ([], .ok ())
  | j, mid :: rest =>
    let r := retryGo (env.fanoutSend j) 0 maxAttempts
    let attempts := r.1.map fun o => Event.sendAttempt fromAddr mid transferAmount o
    match r.2 with
    | .fatal => (attempts, .error (.sessionFailure fromAddr mid))
    | _ =>
      let t := fanoutGo env fromAddr transferAmount maxAttempts (j + 1) rest
      (attempts ++ t.1, t.2)

/-- The fan-out phase of `LeafwayMixer.start`: open the source session,
query fee and balance, preflight-check
`balance < amount + fee * transfersN`, compute
`transfer_amount = amount / len(middlemen)` (Python division: raises
`ZeroDivisionError` when the middlemen list is empty), then run the
fan-out loop. -/
def fanoutPhase (env : LeafwayEnv) (fromAddr : String) (middlemen : List String)
    (amount : Rat) (maxAttempts : Nat) : List Event × Except Failure Unit :=
  let transferFee := env.srcFee
  let balance := env.srcBalance
  let queries : List Event := [.feeQuery fromAddr, .balanceQuery fromAddr]
  if balance < amount + transferFee * ((transfersN middlemen.length : Nat) : Rat) then
    (queries, .error (.insufficientFunds 0))
  else
    match pyDiv amount middlemen.length with
    | .error e => (queries, .error e)
    | .ok transferAmount =>
      let t := fanoutGo env fromAddr transferAmount maxAttempts 0 middlemen
      (queries ++ t.1, t.2)

/-- The fan-in loop of `LeafwayMixer.start`: for each middleman, open its
session, query fee then balance, compute `transfer_amount = balance -
transferFee`; if positive, retry-send that remainder to the destination
(again with no `for/else`, so exhaustion is silent), otherwise skip the
middleman with a notice and continue. -/
def faninGo (env : LeafwayEnv) (toAddr : String) (maxAttempts : Nat) :
    Nat → List String → List Event × Except Failure Unit
  | _, [] => ([], .ok ())
  | j, mid :: rest =>
    let transferFee := env.midFee j
    let balance := env.midBalance j
    let transferAmount := balance - transferFee
    let queries : List Event := [.feeQuery mid, .balanceQuery mid]
    if transferAmount > 0 then
      let r := retryGo (env.faninSend j) 0 maxAttempts
      let attempts := r.1.map fun o => Event.sendAttempt mid toAddr transferAmount o
      match r.2 with
      | .fatal => (queries ++ attempts, .error (.sessionFailure mid toAddr))
      | _ =>
        let t := faninGo env toAddr maxAttempts (j + 1) rest
        (queries ++ attempts ++ t.1, t.2)
    else
      let t := faninGo env toAddr maxAttempts (j + 1) rest
      (queries ++ t.1, t.2)

/-- `LeafwayMixer.start(amount, max_attempts)`: the fan-out phase, the
global settle wait, then the fan-in phase. -/
def start (env : LeafwayEnv) (fromAddr : String) (middlemen : List String)
    (toAddr : String) (amount : Rat) (maxAttempts : Nat) :
    List Event × Except Failure Unit :=
  let p := fanoutPhase env fromAddr middlemen amount maxAttempts
  match p.2 with
  | .error e => (p.1, .error e)
  | .ok _ =>
    let t := faninGo env toAddr maxAttempts 0 middlemen
    (p.1 ++ t.1, t.2)

end LeafwayMixer

/-- Swap the elements at positions `i` and `j` of a list
(`x[i], x[j] = x[j], x[i]`); out-of-range indices leave the list
unchanged (CPython's shuffle only ever uses in-range indices). -/
def listSwap (l : List α) (i j : Nat) : List α :=
  match l[i]?, l[j]? with
  | some a, some b => (l.set i b).set j a
  | _, _ => l

/-- The loop of CPython's `random.shuffle`: for `i` from `n` down to `1`,
draw `j = randbelow(i + 1)` and swap positions `i` and `j`.  The random
source is modelled as an oracle `rand`; `rand i % (i + 1)` is the draw
`randbelow(i + 1)`. -/
def shuffleGo (rand : Nat → Nat) : List α → Nat → List α
  | l, 0 => l
  | l, i + 1 => shuffleGo rand (listSwap l (i + 1) (rand (i + 1) % (i + 2))) i

/-- `random.shuffle(x)` as a function on the list contents: run the swap
loop from `i = len(x) - 1` down to `1`. -/
def pyShuffle (rand : Nat → Nat) (l : List α) : List α :=
  shuffleGo rand l (l.length - 1)

/-- A heap of Python list objects; a reference is an index into the heap.
This makes aliasing observable, so that "the caller's list object is not
mutated" is a real statement about the construction code. -/
structure PyHeap (α : Type) where
  cells : List (List α)

/-- Dereference a list reference (reads of a dangling reference yield `[]`;
the theorems only use valid references). -/
def PyHeap.read (h : PyHeap α) (r : Nat) : List α :=
  (h.cells[r]?).getD []

/-- Allocate a fresh list object with the given contents, returning its
reference. -/
def PyHeap.alloc (h : PyHeap α) (l : List α) : Nat × PyHeap α :=
  (h.cells.length, ⟨h.cells ++ [l]⟩)

/-- Overwrite the contents of the list object behind a reference. -/
def PyHeap.write (h : PyHeap α) (r : Nat) (l : List α) : PyHeap α :=
  ⟨h.cells.set r l⟩

/-- The middlemen initialisation shared by `DominoMixer.__init__` and
`LeafwayMixer.__init__`:
`wallet_chain.middlemen = wallet_chain.middlemen.copy()` allocates a copy
of the caller's list, and `random.shuffle(wallet_chain.middlemen)`
shuffles that copy in place.  Given the reference `r` to the caller's
list, returns the reference stored in the chain and the resulting heap. -/
def initMiddlemen (h : PyHeap α) (r : Nat) (rand : Nat → Nat) : Nat × PyHeap α :=
  let copied := h.alloc (h.read r)
  let h2 := copied.2.write copied.1 (pyShuffle rand (copied.2.read copied.1))
  (copied.1, h2)

/-! Concrete environments used to exercise the model on closed inputs. -/

/-- A Domino environment where every send succeeds. -/
def dominoEnvOk : DominoEnv := ⟨fun _ => 1, fun _ => 100, fun _ _ => .ok⟩

/-- A Domino environment where every send raises `TransactionException`. -/
def dominoEnvTx : DominoEnv := ⟨fun _ => 1, fun _ => 100, fun _ _ => .txError⟩

/-- A Domino environment where the first attempt of each hop raises
`TransactionException` and the second raises a non-transaction error. -/
def dominoEnvFatal : DominoEnv :=
  ⟨fun _ => 1, fun _ => 100, fun _ a => if a = 0 then .txError else .sessionError⟩

/-- A Leafway environment where every send succeeds. -/
def leafwayEnvOk : LeafwayEnv :=
  ⟨1, 100, fun _ _ => .ok, fun _ => 1, fun j => if j = 0 then 3 else 0, fun _ _ => .ok⟩

/-- A Leafway environment where every fan-out send to middleman 0 raises
`TransactionException` while all other sends succeed. -/
def leafwayEnvLegFail : LeafwayEnv :=
  ⟨1, 100, fun j _ => if j = 0 then .txError else .ok, fun _ => 1, fun _ => 3,
    fun _ _ => .ok⟩

/-- A Leafway environment where the first attempt of each leg raises
`TransactionException` and the second raises a non-transaction error. -/
def leafwayEnvFatal : LeafwayEnv :=
  ⟨1, 100, fun _ a => if a = 0 then .txError else .sessionError, fun _ => 1,
    fun _ => 3, fun _ a => if a = 0 then .txError else .sessionError⟩

/-- A Leafway environment where every fan-in send from middleman 0 raises
`TransactionException` while all other sends succeed. -/
def leafwayEnvFaninFail : LeafwayEnv :=
  ⟨1, 100, fun _ _ => .ok, fun _ => 1, fun _ => 3,
    fun j _ => if j = 0 then .txError else .ok⟩

end XmrMixer

namespace XmrMixer

/-! Helper lemmas about the retry loop. -/

/-- If every attempt from index `s` on raises `TransactionException`, the
retry loop uses all `n` iterations and falls through exhausted. -/
theorem retryGo_exhausted (send : Nat → SendOutcome) :
    ∀ (n s : Nat), (∀ b, send (s + b) = .txError) →
      retryGo send s n = (List.replicate n .txError, .exhausted) := by
  intro n
  induction n with
  | zero => intro s _; rfl
  | succ n ih =>
    intro s h
    have h0 : send s = .txError := by simpa using h 0
    have hrec := ih (s + 1) (fun b => by
      have := h (1 + b)
      rwa [← Nat.add_assoc] at this)
    simp [retryGo, h0, hrec, List.replicate_succ]

/-- If attempts `s, …, s + a - 1` raise `TransactionException` and attempt
`s + a` raises a non-transaction error (with `a` still within the bound),
the retry loop stops right after that attempt and reports it fatal. -/
theorem retryGo_fatal (send : Nat → SendOutcome) :
    ∀ (a n s : Nat), a < n → (∀ b, b < a → send (s + b) = .txError) →
      send (s + a) = .sessionError →
      retryGo send s n = (List.replicate a .txError ++ [.sessionError], .fatal) := by
  intro a
  induction a with
  | zero =>
    intro n s hlt _ hf
    match n, hlt with
    | n + 1, _ =>
      have h0 : send s = .sessionError := by simpa using hf
      simp [retryGo, h0]
  | succ a ih =>
    intro n s hlt hb hf
    match n, hlt with
    | n + 1, hlt =>
      have h0 : send s = .txError := by simpa using hb 0 (Nat.succ_pos a)
      have hrec := ih n (s + 1) (by omega)
        (fun b hba => by
          have := hb (1 + b) (by omega)
          rwa [← Nat.add_assoc] at this)
        (by
          have heq : s + 1 + a = s + (a + 1) := by omega
          rw [heq]; exact hf)
      simp [retryGo, h0, hrec, List.replicate_succ]

/-- With at least one iteration available, the retry loop makes at least
one attempt. -/
theorem retryGo_ne_nil (send : Nat → SendOutcome) (s n : Nat) (hn : n ≠ 0) :
    (retryGo send s n).1 ≠ [] := by
  match n, hn with
  | n + 1, _ =>
    cases h : send s <;> simp [retryGo, h]

/-! Helper lemmas for the shuffle: swapping two positions of a list
permutes it. -/

open List in
/-- Moving the element at position `m` to the front while writing `c`
into position `m` permutes a `c`-fronted list. -/
theorem cons_set_perm {α : Type} :
    ∀ (t : List α) (m : Nat) (b c : α), t[m]? = some b →
      List.Perm (b :: t.set m c) (c :: t) := by
  intro t
  induction t with
  | nil => intro m b c hm; simp at hm
  | cons d t ih =>
    intro m b c hm
    cases m with
    | zero =>
      simp only [List.getElem?_cons_zero, Option.some_inj] at hm
      subst hm
      exact List.Perm.swap c d t
    | succ m =>
      simp only [List.getElem?_cons_succ] at hm
      calc b :: (d :: t).set (m + 1) c
          = b :: d :: t.set m c := by simp
        _ ~ d :: b :: t.set m c := List.Perm.swap d b _
        _ ~ d :: c :: t := List.Perm.cons d (ih m b c hm)
        _ ~ c :: d :: t := List.Perm.swap c d t

/-- Writing `l[j]` into position `i` and `l[i]` into position `j`
permutes `l`. -/
theorem set_set_swap_perm {α : Type} :
    ∀ (l : List α) (i j : Nat) (a b : α), l[i]? = some a → l[j]? = some b →
      List.Perm ((l.set i b).set j a) l := by
  intro l
  induction l with
  | nil => intro i j a b hi _; simp at hi
  | cons d t ih =>
    intro i j a b hi hj
    cases i with
    | zero =>
      simp only [List.getElem?_cons_zero, Option.some_inj] at hi
      subst hi
      cases j with
      | zero =>
        simp only [List.getElem?_cons_zero, Option.some_inj] at hj
        subst hj
        simp
      | succ m =>
        simp only [List.getElem?_cons_succ] at hj
        simpa using cons_set_perm t m b d hj
    | succ n =>
      simp only [List.getElem?_cons_succ] at hi
      cases j with
      | zero =>
        simp only [List.getElem?_cons_zero, Option.some_inj] at hj
        subst hj
        simpa using cons_set_perm t n a d hi
      | succ m =>
        simp only [List.getElem?_cons_succ] at hj
        simpa using List.Perm.cons d (ih n m a b hi hj)

/-- `listSwap` permutes the list. -/
theorem listSwap_perm {α : Type} (l : List α) (i j : Nat) :
    List.Perm (listSwap l i j) l := by
  unfold listSwap
  cases hi : l[i]? with
  | none => cases hj : l[j]? <;> simp
  | some a =>
    cases hj : l[j]? with
    | none => simp
    | some b => simpa using set_set_swap_perm l i j a b hi hj

/-- Each pass of the shuffle loop permutes the list. -/
theorem shuffleGo_perm {α : Type} (rand : Nat → Nat) :
    ∀ (n : Nat) (l : List α), List.Perm (shuffleGo rand l n) l := by
  intro n
  induction n with
  | zero => intro l; exact List.Perm.refl l
  | succ n ih =>
    intro l
    exact (ih _).trans (listSwap_perm l (n + 1) (rand (n + 1) % (n + 2)))

/-- `random.shuffle` permutes the list contents. -/
theorem pyShuffle_perm {α : Type} (rand : Nat → Nat) (l : List α) :
    List.Perm (pyShuffle rand l) l :=
  shuffleGo_perm rand (l.length - 1) l

/-- C8: for a path with `k` middlemen, `DominoMixer.approxMinutes` equals
`(k + 1) * settle_window_minutes` with `settle_window_minutes = 25`
(`hops = k + 1`), and `LeafwayMixer.approxMinutes` equals
`settle_window_minutes + k * 15`. -/
theorem approx_minutes_formula (k : Nat) :
    DominoMixer.approxMinutes k = (k + 1) * 25 ∧
    LeafwayMixer.approxMinutes k = 25 + k * 15 := by
  constructor
  · simp [DominoMixer.approxMinutes, DominoMixer.transfersN, TRANSFER_APPROX_MINS,
      Nat.add_comm]
  · simp [LeafwayMixer.approxMinutes, TRANSFER_APPROX_MINS]

/-- C5: for every heap, every reference `r` to a caller-supplied middlemen
list and every random source, the execution order stored by
`DominoMixer.__init__`/`LeafwayMixer.__init__` (the freshly allocated,
shuffled copy) is a permutation of the caller's list, and the list object
behind the caller's reference is left unmodified (same elements in the
same order). -/
theorem middlemen_shuffle_perm_no_mutation {α : Type} (h : PyHeap α) (r : Nat)
    (rand : Nat → Nat) :
    List.Perm ((initMiddlemen h r rand).2.read (initMiddlemen h r rand).1)
      (h.read r) ∧
    (initMiddlemen h r rand).2.read r = h.read r := by
  have hl : (h.cells ++ [h.read r])[h.cells.length]? = some (h.read r) :=
    List.getElem?_concat_length h.cells (h.read r)
  have hlen : h.cells.length < (h.cells ++ [h.read r]).length := by
    simp
  constructor
  · have hread : (initMiddlemen h r rand).2.read (initMiddlemen h r rand).1
        = pyShuffle rand (h.read r) := by
      simp [initMiddlemen, PyHeap.alloc, PyHeap.write, PyHeap.read, hl,
        List.getElem?_set, hlen]
    rw [hread]
    exact pyShuffle_perm rand (h.read r)
  · rcases Nat.lt_trichotomy r h.cells.length with hr | hr | hr
    · have hne : h.cells.length ≠ r := by omega
      simp [initMiddlemen, PyHeap.alloc, PyHeap.write, PyHeap.read, hl,
        List.getElem?_set, hne, List.getElem?_append, hr]
    · have hnone : h.cells[r]? = none := List.getElem?_eq_none (by omega)
      have hrd : h.read r = [] := by simp [PyHeap.read, hnone]
      have hps : pyShuffle rand ([] : List α) = [] := rfl
      simp [initMiddlemen, PyHeap.alloc, PyHeap.write, PyHeap.read, hrd,
        List.getElem?_set, hr, List.getElem?_concat_length, hps]
    · have hne : h.cells.length ≠ r := by omega
      have h2 : h.cells[r]? = none := List.getElem?_eq_none (by omega)
      have h3 : ∀ y : List α, (h.cells ++ [y])[r]? = none := fun y =>
        List.getElem?_eq_none (by simp; omega)
      simp [initMiddlemen, PyHeap.alloc, PyHeap.write, PyHeap.read,
        List.getElem?_set, hne, h3, h2]

/-- Helper: a preflight failure surfaced by the Domino hop loop started at
hop `i` always carries a hop index at least `i`. -/
theorem startGo_insufficient_ge (env : DominoEnv) (amount : Rat)
    (maxAttempts totalHops : Nat) :
    ∀ (rest : List String) (cur : String) (i j : Nat),
      (DominoMixer.startGo env amount maxAttempts totalHops cur rest i).2 =
        .error (.insufficientFunds j) → i ≤ j := by
  intro rest
  induction rest with
  | nil =>
    intro cur i j hres
    simp [DominoMixer.startGo] at hres
  | cons next rest ih =>
    intro cur i j hres
    by_cases hpre : env.balance i < amount + env.fee i * ((totalHops - i : Nat) : Rat)
    · simp [DominoMixer.startGo, hpre] at hres
      omega
    · rcases hrg : retryGo (env.send i) 0 maxAttempts with ⟨outs, r⟩
      cases r with
      | success =>
        simp [DominoMixer.startGo, hpre, hrg] at hres
        have := ih next (i + 1) j hres
        omega
      | exhausted => simp [DominoMixer.startGo, hpre, hrg] at hres
      | fatal => simp [DominoMixer.startGo, hpre, hrg] at hres

/-- C3: at every 0-indexed hop `i` of a Domino run over a path with
`totalHops` hops, with the balance `B` and freshly queried fee of the
current holder: if `B < amount + fee * (totalHops - i)` then
`InsufficientFunds` is raised at that hop before any send attempt (the
hop's trace is just the fee and balance queries), and otherwise the run
never surfaces an `InsufficientFunds` failure for hop `i`. -/
theorem domino_preflight (env : DominoEnv) (amount : Rat)
    (maxAttempts totalHops : Nat) (cur next : String) (rest : List String) (i : Nat) :
    (env.balance i < amount + env.fee i * ((totalHops - i : Nat) : Rat) →
      DominoMixer.startGo env amount maxAttempts totalHops cur (next :: rest) i =
        ([.feeQuery cur, .balanceQuery cur], .error (.insufficientFunds i))) ∧
    (¬ env.balance i < amount + env.fee i * ((totalHops - i : Nat) : Rat) →
      (DominoMixer.startGo env amount maxAttempts totalHops cur (next :: rest) i).2 ≠
        .error (.insufficientFunds i)) := by
  constructor
  · intro hpre
    simp [DominoMixer.startGo, hpre]
  · intro hpre hres
    rcases hrg : retryGo (env.send i) 0 maxAttempts with ⟨outs, r⟩
    cases r with
    | success =>
      simp [DominoMixer.startGo, hpre, hrg] at hres
      have := startGo_insufficient_ge env amount maxAttempts totalHops rest next
        (i + 1) i hres
      omega
    | exhausted => simp [DominoMixer.startGo, hpre, hrg] at hres
    | fatal => simp [DominoMixer.startGo, hpre, hrg] at hres

/-- Witness for C3: with fee 1 and balance 100 at every hop, a Domino run
over path `["m", "d"]` (2 hops) raises `InsufficientFunds` at hop 0 for
amount 200, and never surfaces `InsufficientFunds` for hop 0 for
amount 5. -/
theorem domino_preflight_witness :
    DominoMixer.startGo dominoEnvOk 200 3 2 "s" ["m", "d"] 0 =
      ([.feeQuery "s", .balanceQuery "s"], .error (.insufficientFunds 0)) ∧
    (DominoMixer.startGo dominoEnvOk 5 3 2 "s" ["m", "d"] 0).2 ≠
      .error (.insufficientFunds 0) :=
  ⟨(domino_preflight dominoEnvOk 200 3 2 "s" "m" ["d"] 0).1 (by norm_num [dominoEnvOk]),
   (domino_preflight dominoEnvOk 5 3 2 "s" "m" ["d"] 0).2 (by norm_num [dominoEnvOk])⟩

/-- C2: at a Domino hop whose preflight passes, if every send attempt at
that hop raises `TransactionException`, then exactly `maxAttempts` send
attempts occur there, a `relayExhausted` failure naming that hop's source
address, destination address and the attempt count is raised, and no
further hops execute: the remaining trace consists solely of that hop's
queries and its `maxAttempts` failed attempts, so no send to any later
path node occurs. -/
theorem domino_relay_exhausted (env : DominoEnv) (amount : Rat)
    (maxAttempts totalHops : Nat) (cur next : String) (rest : List String) (i : Nat)
    (hpre : ¬ env.balance i < amount + env.fee i * ((totalHops - i : Nat) : Rat))
    (hfail : ∀ a, env.send i a = .txError) :
    DominoMixer.startGo env amount maxAttempts totalHops cur (next :: rest) i =
      (Event.feeQuery cur :: Event.balanceQuery cur ::
        List.replicate maxAttempts (.sendAttempt cur next amount .txError),
       .error (.relayExhausted cur next maxAttempts)) ∧
    (sendEvents
      (DominoMixer.startGo env amount maxAttempts totalHops cur
        (next :: rest) i).1).length = maxAttempts ∧
    ∀ e ∈ (DominoMixer.startGo env amount maxAttempts totalHops cur
        (next :: rest) i).1,
      e.isSendAttempt = true → e = .sendAttempt cur next amount .txError := by
  have hrg := retryGo_exhausted (env.send i) maxAttempts 0 (fun b => by
    simpa using hfail b)
  have hmain : DominoMixer.startGo env amount maxAttempts totalHops cur
      (next :: rest) i =
      (Event.feeQuery cur :: Event.balanceQuery cur ::
        List.replicate maxAttempts (.sendAttempt cur next amount .txError),
       .error (.relayExhausted cur next maxAttempts)) := by
    simp [DominoMixer.startGo, hpre, hrg, List.map_replicate]
  refine ⟨hmain, ?_, ?_⟩
  · rw [hmain]
    simp [sendEvents, List.filter_cons, Event.isSendAttempt]
  · rw [hmain]
    intro e he hsend
    simp only [List.mem_cons] at he
    rcases he with rfl | rfl | he
    · simp [Event.isSendAttempt] at hsend
    · simp [Event.isSendAttempt] at hsend
    · exact List.eq_of_mem_replicate he

/-- Witness for C2: with fee 1, balance 100 and every send raising
`TransactionException`, the hop from `"s"` to `"m"` makes exactly 3
attempts and raises `relayExhausted "s" "m" 3`. -/
theorem domino_relay_exhausted_witness :
    DominoMixer.startGo dominoEnvTx 5 3 2 "s" ["m", "d"] 0 =
      (Event.feeQuery "s" :: Event.balanceQuery "s" ::
        List.replicate 3 (.sendAttempt "s" "m" 5 .txError),
       .error (.relayExhausted "s" "m" 3)) :=
  (domino_relay_exhausted dominoEnvTx 5 3 2 "s" "m" ["d"] 0 (by norm_num [dominoEnvTx])
    (fun _ => rfl)).1

/-- Helper: every event emitted by the fan-out loop is a send attempt from
the source with the split amount. -/
theorem fanoutGo_events (env : LeafwayEnv) (fromAddr : String) (ta : Rat)
    (maxA : Nat) :
    ∀ (mids : List String) (j : Nat),
      ∀ e ∈ (LeafwayMixer.fanoutGo env fromAddr ta maxA j mids).1,
        ∃ d o, e = .sendAttempt fromAddr d ta o := by
  intro mids
  induction mids with
  | nil =>
    intro j e he
    simp [LeafwayMixer.fanoutGo] at he
  | cons mid rest ih =>
    intro j e he
    rcases hrg : retryGo (env.fanoutSend j) 0 maxA with ⟨outs, r⟩
    cases r with
    | success =>
      simp only [LeafwayMixer.fanoutGo, hrg, List.mem_append, List.mem_map] at he
      rcases he with ⟨o, _, rfl⟩ | he
      · exact ⟨mid, o, rfl⟩
      · exact ih (j + 1) e he
    | exhausted =>
      simp only [LeafwayMixer.fanoutGo, hrg, List.mem_append, List.mem_map] at he
      rcases he with ⟨o, _, rfl⟩ | he
      · exact ⟨mid, o, rfl⟩
      · exact ih (j + 1) e he
    | fatal =>
      simp only [LeafwayMixer.fanoutGo, hrg, List.mem_map] at he
      rcases he with ⟨o, _, rfl⟩
      exact ⟨mid, o, rfl⟩

/-- Helper: the fan-out loop either finishes (silently, even when a leg
exhausted its retries) or aborts with a propagated non-transaction
failure. -/
theorem fanoutGo_result (env : LeafwayEnv) (fromAddr : String) (ta : Rat)
    (maxA : Nat) :
    ∀ (mids : List String) (j : Nat),
      (LeafwayMixer.fanoutGo env fromAddr ta maxA j mids).2 = .ok () ∨
      ∃ s d, (LeafwayMixer.fanoutGo env fromAddr ta maxA j mids).2 =
        .error (.sessionFailure s d) := by
  intro mids
  induction mids with
  | nil =>
    intro j
    left
    rfl
  | cons mid rest ih =>
    intro j
    rcases hrg : retryGo (env.fanoutSend j) 0 maxA with ⟨outs, r⟩
    cases r with
    | success =>
      rcases ih (j + 1) with hok | ⟨s, d, herr⟩
      · left; simp [LeafwayMixer.fanoutGo, hrg, hok]
      · right; exact ⟨s, d, by simp [LeafwayMixer.fanoutGo, hrg, herr]⟩
    | exhausted =>
      rcases ih (j + 1) with hok | ⟨s, d, herr⟩
      · left; simp [LeafwayMixer.fanoutGo, hrg, hok]
      · right; exact ⟨s, d, by simp [LeafwayMixer.fanoutGo, hrg, herr]⟩
    | fatal =>
      right
      exact ⟨fromAddr, mid, by simp [LeafwayMixer.fanoutGo, hrg]⟩

/-- Helper: shape of the fan-out phase when its preflight check fails. -/
theorem fanoutPhase_insufficient (env : LeafwayEnv) (fromAddr : String)
    (mids : List String) (amount : Rat) (maxA : Nat)
    (hpre : env.srcBalance < amount +
      env.srcFee * ((LeafwayMixer.transfersN mids.length : Nat) : Rat)) :
    LeafwayMixer.fanoutPhase env fromAddr mids amount maxA =
      ([.feeQuery fromAddr, .balanceQuery fromAddr],
       .error (.insufficientFunds 0)) := by
  simp [LeafwayMixer.fanoutPhase, hpre]

/-- Helper: shape of the fan-out phase when the preflight passes but the
middlemen list is empty (Python divides by zero). -/
theorem fanoutPhase_empty (env : LeafwayEnv) (fromAddr : String)
    (amount : Rat) (maxA : Nat)
    (hpre : ¬ env.srcBalance < amount +
      env.srcFee *
        ((LeafwayMixer.transfersN (List.length ([] : List String)) : Nat) : Rat)) :
    LeafwayMixer.fanoutPhase env fromAddr [] amount maxA =
      ([.feeQuery fromAddr, .balanceQuery fromAddr], .error .zeroDivision) := by
  have hpre2 : ¬ env.srcBalance < amount := by
    simpa [LeafwayMixer.transfersN] using hpre
  simp [LeafwayMixer.fanoutPhase, LeafwayMixer.transfersN, hpre2, pyDiv]

/-- Helper: shape of the fan-out phase when the preflight passes and the
middlemen list is nonempty. -/
theorem fanoutPhase_run (env : LeafwayEnv) (fromAddr : String)
    (mids : List String) (amount : Rat) (maxA : Nat)
    (hpre : ¬ env.srcBalance < amount +
      env.srcFee * ((LeafwayMixer.transfersN mids.length : Nat) : Rat))
    (hk : mids.length ≠ 0) :
    LeafwayMixer.fanoutPhase env fromAddr mids amount maxA =
      (Event.feeQuery fromAddr :: Event.balanceQuery fromAddr ::
        (LeafwayMixer.fanoutGo env fromAddr (amount / (mids.length : Rat))
          maxA 0 mids).1,
       (LeafwayMixer.fanoutGo env fromAddr (amount / (mids.length : Rat))
          maxA 0 mids).2) := by
  simp [LeafwayMixer.fanoutPhase, hpre, pyDiv, hk]

/-- C4: the Leafway fan-out phase performs exactly one balance check on the
source (one balance query in its whole trace); if the source balance is
below `amount + fee * (2 * k)` an `InsufficientFunds` failure is raised
before any fan-out send, and otherwise the fan-out phase never surfaces an
`InsufficientFunds` failure. -/
theorem leafway_fanout_preflight (env : LeafwayEnv) (fromAddr : String)
    (mids : List String) (amount : Rat) (maxA : Nat) :
    ((LeafwayMixer.fanoutPhase env fromAddr mids amount maxA).1.count
        (Event.balanceQuery fromAddr)) = 1 ∧
    (env.srcBalance < amount +
        env.srcFee * ((LeafwayMixer.transfersN mids.length : Nat) : Rat) →
      LeafwayMixer.fanoutPhase env fromAddr mids amount maxA =
        ([.feeQuery fromAddr, .balanceQuery fromAddr],
         .error (.insufficientFunds 0))) ∧
    (¬ env.srcBalance < amount +
        env.srcFee * ((LeafwayMixer.transfersN mids.length : Nat) : Rat) →
      ∀ hop, (LeafwayMixer.fanoutPhase env fromAddr mids amount maxA).2 ≠
        .error (.insufficientFunds hop)) := by
  refine ⟨?_, ?_, ?_⟩
  · by_cases hpre : env.srcBalance < amount +
        env.srcFee * ((LeafwayMixer.transfersN mids.length : Nat) : Rat)
    · rw [fanoutPhase_insufficient env fromAddr mids amount maxA hpre]
      simp [List.count_cons]
    · by_cases hk : mids.length = 0
      · have hnil : mids = [] := List.length_eq_zero.mp hk
        subst hnil
        rw [fanoutPhase_empty env fromAddr amount maxA hpre]
        simp [List.count_cons]
      · have hzero : ((LeafwayMixer.fanoutGo env fromAddr
            (amount / (mids.length : Rat)) maxA 0 mids).1.count
            (Event.balanceQuery fromAddr)) = 0 := by
          rw [List.count_eq_zero]
          intro hmem
          rcases fanoutGo_events env fromAddr (amount / (mids.length : Rat))
            maxA mids 0 _ hmem with ⟨d, o, heq⟩
          simp at heq
        rw [fanoutPhase_run env fromAddr mids amount maxA hpre hk]
        simp [List.count_cons, hzero]
  · intro hpre
    exact fanoutPhase_insufficient env fromAddr mids amount maxA hpre
  · intro hpre hop hres
    by_cases hk : mids.length = 0
    · have hnil : mids = [] := List.length_eq_zero.mp hk
      subst hnil
      rw [fanoutPhase_empty env fromAddr amount maxA hpre] at hres
      simp at hres
    · rw [fanoutPhase_run env fromAddr mids amount maxA hpre hk] at hres
      rcases fanoutGo_result env fromAddr (amount / (mids.length : Rat))
          maxA mids 0 with hok | ⟨s, d, herr⟩
      · rw [hok] at hres
        simp at hres
      · rw [herr] at hres
        simp at hres

/-- Witness for C4: with fee 1 and source balance 100 over two middlemen,
the trace has exactly one source balance query; with amount 200 the
preflight fails immediately, and with amount 10 no `InsufficientFunds` is
surfaced. -/
theorem leafway_fanout_preflight_witness :
    ((LeafwayMixer.fanoutPhase leafwayEnvOk "s" ["a", "b"] 10 2).1.count
        (Event.balanceQuery "s")) = 1 ∧
    LeafwayMixer.fanoutPhase leafwayEnvOk "s" ["a", "b"] 200 2 =
      ([.feeQuery "s", .balanceQuery "s"], .error (.insufficientFunds 0)) ∧
    ∀ hop, (LeafwayMixer.fanoutPhase leafwayEnvOk "s" ["a", "b"] 10 2).2 ≠
      .error (.insufficientFunds hop) :=
  ⟨(leafway_fanout_preflight leafwayEnvOk "s" ["a", "b"] 10 2).1,
   (leafway_fanout_preflight leafwayEnvOk "s" ["a", "b"] 200 2).2.1
     (by norm_num [leafwayEnvOk, LeafwayMixer.transfersN]),
   (leafway_fanout_preflight leafwayEnvOk "s" ["a", "b"] 10 2).2.2
     (by norm_num [leafwayEnvOk, LeafwayMixer.transfersN])⟩

/-- C6: every send attempt of the Leafway fan-out phase carries exactly
the amount `amount / k` (`k` the number of middlemen; plain division, no
remainder redistribution), so all fan-out legs send the same value. -/
theorem leafway_fanout_split (env : LeafwayEnv) (fromAddr : String)
    (mids : List String) (amount : Rat) (maxA : Nat) :
    ∀ e ∈ (LeafwayMixer.fanoutPhase env fromAddr mids amount maxA).1,
      e.isSendAttempt = true →
      ∃ d o, e = .sendAttempt fromAddr d (amount / (mids.length : Rat)) o := by
  intro e he hsend
  by_cases hpre : env.srcBalance < amount +
      env.srcFee * ((LeafwayMixer.transfersN mids.length : Nat) : Rat)
  · rw [fanoutPhase_insufficient env fromAddr mids amount maxA hpre] at he
    simp only [List.mem_cons, List.not_mem_nil, or_false] at he
    rcases he with rfl | rfl <;> simp [Event.isSendAttempt] at hsend
  · by_cases hk : mids.length = 0
    · have hnil : mids = [] := List.length_eq_zero.mp hk
      subst hnil
      rw [fanoutPhase_empty env fromAddr amount maxA hpre] at he
      simp only [List.mem_cons, List.not_mem_nil, or_false] at he
      rcases he with rfl | rfl <;> simp [Event.isSendAttempt] at hsend
    · rw [fanoutPhase_run env fromAddr mids amount maxA hpre hk] at he
      simp only [List.mem_cons] at he
      rcases he with rfl | rfl | he
      · simp [Event.isSendAttempt] at hsend
      · simp [Event.isSendAttempt] at hsend
      · exact fanoutGo_events env fromAddr (amount / (mids.length : Rat))
          maxA mids 0 e he

/-- Witness for C6: in a run splitting amount 10 across two middlemen, the
fan-out send to `"a"` carries exactly `10 / 2 = 5`. -/
theorem leafway_fanout_split_witness :
    ∃ d o, Event.sendAttempt "s" "a" 5 .ok =
      Event.sendAttempt "s" d ((10 : Rat) / ((2 : Nat) : Rat)) o := by
  have hpre : ¬ leafwayEnvOk.srcBalance < 10 +
      leafwayEnvOk.srcFee *
        ((LeafwayMixer.transfersN (List.length ["a", "b"]) : Nat) : Rat) := by
    norm_num [leafwayEnvOk, LeafwayMixer.transfersN]
  have hmem : Event.sendAttempt "s" "a" 5 .ok ∈
      (LeafwayMixer.fanoutPhase leafwayEnvOk "s" ["a", "b"] 10 2).1 := by
    rw [fanoutPhase_run leafwayEnvOk "s" ["a", "b"] 10 2 hpre (by norm_num)]
    norm_num [LeafwayMixer.fanoutGo, retryGo, leafwayEnvOk]
  exact leafway_fanout_split leafwayEnvOk "s" ["a", "b"] 10 2 _ hmem rfl

/-- C7: at each Leafway fan-in middleman, with balance and fee freshly
queried from that middleman's session: if `balance - fee > 0`, every send
for that middleman passes exactly the amount `balance - fee` to the
destination (and a positive attempt budget guarantees at least one
attempt); if `balance - fee ≤ 0`, no send occurs for that middleman, and
the loop proceeds to the remaining middlemen without raising an error. -/
theorem leafway_fanin_remainder (env : LeafwayEnv) (toAddr : String)
    (maxA j : Nat) (mid : String) (rest : List String) :
    (env.midBalance j - env.midFee j > 0 →
      (∃ tail res,
        LeafwayMixer.faninGo env toAddr maxA j (mid :: rest) =
          (Event.feeQuery mid :: Event.balanceQuery mid ::
            (((retryGo (env.faninSend j) 0 maxA).1.map fun o =>
              Event.sendAttempt mid toAddr
                (env.midBalance j - env.midFee j) o) ++ tail),
           res)) ∧
      (maxA ≠ 0 → (retryGo (env.faninSend j) 0 maxA).1 ≠ [])) ∧
    (¬ env.midBalance j - env.midFee j > 0 →
      LeafwayMixer.faninGo env toAddr maxA j (mid :: rest) =
        (Event.feeQuery mid :: Event.balanceQuery mid ::
          (LeafwayMixer.faninGo env toAddr maxA (j + 1) rest).1,
         (LeafwayMixer.faninGo env toAddr maxA (j + 1) rest).2)) := by
  constructor
  · intro hpos
    constructor
    · rcases hrg : retryGo (env.faninSend j) 0 maxA with ⟨outs, r⟩
      cases r with
      | success =>
        exact ⟨(LeafwayMixer.faninGo env toAddr maxA (j + 1) rest).1,
          (LeafwayMixer.faninGo env toAddr maxA (j + 1) rest).2,
          by simp [LeafwayMixer.faninGo, hpos, hrg]⟩
      | exhausted =>
        exact ⟨(LeafwayMixer.faninGo env toAddr maxA (j + 1) rest).1,
          (LeafwayMixer.faninGo env toAddr maxA (j + 1) rest).2,
          by simp [LeafwayMixer.faninGo, hpos, hrg]⟩
      | fatal =>
        exact ⟨[], .error (.sessionFailure mid toAddr),
          by simp [LeafwayMixer.faninGo, hpos, hrg]⟩
    · intro hmaxA
      exact retryGo_ne_nil (env.faninSend j) 0 maxA hmaxA
  · intro hpos
    simp [LeafwayMixer.faninGo, hpos]

/-- Witness for C7: middleman 0 of `leafwayEnvOk` has remainder
`3 - 1 = 2 > 0` and its fan-in sends carry exactly that remainder;
middleman 1 has remainder `0 - 1 ≤ 0` and is skipped, the loop moving on
to the rest. -/
theorem leafway_fanin_remainder_witness :
    (∃ tail res,
      LeafwayMixer.faninGo leafwayEnvOk "d" 2 0 ("a" :: ["b"]) =
        (Event.feeQuery "a" :: Event.balanceQuery "a" ::
          (((retryGo (leafwayEnvOk.faninSend 0) 0 2).1.map fun o =>
            Event.sendAttempt "a" "d"
              (leafwayEnvOk.midBalance 0 - leafwayEnvOk.midFee 0) o) ++ tail),
         res)) ∧
    LeafwayMixer.faninGo leafwayEnvOk "d" 2 1 ("b" :: []) =
      (Event.feeQuery "b" :: Event.balanceQuery "b" ::
        (LeafwayMixer.faninGo leafwayEnvOk "d" 2 2 []).1,
       (LeafwayMixer.faninGo leafwayEnvOk "d" 2 2 []).2) :=
  ⟨((leafway_fanin_remainder leafwayEnvOk "d" 2 0 "a" ["b"]).1
      (by norm_num [leafwayEnvOk])).1,
   (leafway_fanin_remainder leafwayEnvOk "d" 2 1 "b" []).2
      (by norm_num [leafwayEnvOk])⟩

/-- C10: with an empty middlemen list, whenever the source balance is at
least `amount` (so the preflight, whose fee reserve is `fee * (2 * 0) = 0`,
passes), `LeafwayMixer.start` reaches the split
`amount / len(middlemen)` and fails with Python's division-by-zero error —
not with a relay-specific error and not by completing: the preflight does
not guard the division. -/
theorem leafway_empty_middlemen_zero_division (env : LeafwayEnv)
    (fromAddr toAddr : String) (amount : Rat) (maxA : Nat)
    (hbal : ¬ env.srcBalance < amount) :
    LeafwayMixer.start env fromAddr [] toAddr amount maxA =
      ([.feeQuery fromAddr, .balanceQuery fromAddr], .error .zeroDivision) := by
  have hpre : ¬ env.srcBalance < amount + env.srcFee *
      ((LeafwayMixer.transfersN (List.length ([] : List String)) : Nat) : Rat) := by
    simpa [LeafwayMixer.transfersN] using hbal
  have hphase := fanoutPhase_empty env fromAddr amount maxA hpre
  simp [LeafwayMixer.start, hphase]

/-- Witness for C10: a source with balance 100 ≥ amount 5 and no
middlemen reaches the division by zero. -/
theorem leafway_empty_middlemen_zero_division_witness :
    LeafwayMixer.start leafwayEnvOk "s" [] "d" 5 3 =
      ([.feeQuery "s", .balanceQuery "s"], .error .zeroDivision) :=
  leafway_empty_middlemen_zero_division leafwayEnvOk "s" "d" 5 3
    (by norm_num [leafwayEnvOk])

/-- C1 fails on the code: `LeafwayMixer.start`'s retry loops have no
`for/else`, so a leg whose sends fail `max_attempts` consecutive times
with `TransactionException` is NOT surfaced as a `relayExhausted` (or any
other) failure.  Here every fan-out send to middleman `"a"` fails (first
conjunct), respectively every fan-in send from middleman `"a"` fails
(third conjunct), yet the run completes with no error, continuing as if
the sends had succeeded. -/
theorem leafway_exhausted_leg_not_surfaced :
    (∀ a, leafwayEnvLegFail.fanoutSend 0 a = .txError) ∧
    (LeafwayMixer.start leafwayEnvLegFail "s" ["a", "b"] "d" 10 2).2 = .ok () ∧
    (∀ a, leafwayEnvFaninFail.faninSend 0 a = .txError) ∧
    (LeafwayMixer.start leafwayEnvFaninFail "s" ["a", "b"] "d" 10 2).2 =
      .ok () := by
  refine ⟨fun a => rfl, ?_, fun a => rfl, ?_⟩
  · norm_num [LeafwayMixer.start, LeafwayMixer.fanoutPhase,
      LeafwayMixer.fanoutGo, LeafwayMixer.faninGo, LeafwayMixer.transfersN,
      retryGo, pyDiv, leafwayEnvLegFail]
  · norm_num [LeafwayMixer.start, LeafwayMixer.fanoutPhase,
      LeafwayMixer.fanoutGo, LeafwayMixer.faninGo, LeafwayMixer.transfersN,
      retryGo, pyDiv, leafwayEnvFaninFail]

/-- C9: the retry loops of both mixers catch (and retry) only
`TransactionException`; any other failure raised by a send propagates to
the caller immediately after the attempt that raised it, with no further
send attempts at that hop or leg: at a Domino hop, at a Leafway fan-out
leg, and at a Leafway fan-in leg, if attempts `0, …, a-1` raise
`TransactionException` and attempt `a` (within the bound) raises a
non-transaction error, the step ends with exactly `a + 1` attempts and the
propagated failure. -/
theorem only_transaction_errors_retried :
    (∀ (env : DominoEnv) (amount : Rat) (maxA totalHops : Nat)
        (cur next : String) (rest : List String) (i a : Nat),
      ¬ env.balance i < amount + env.fee i * ((totalHops - i : Nat) : Rat) →
      a < maxA →
      (∀ b, b < a → env.send i b = .txError) →
      env.send i a = .sessionError →
      DominoMixer.startGo env amount maxA totalHops cur (next :: rest) i =
        (Event.feeQuery cur :: Event.balanceQuery cur ::
          ((List.replicate a SendOutcome.txError ++
            [SendOutcome.sessionError]).map fun o =>
              Event.sendAttempt cur next amount o),
         .error (.sessionFailure cur next))) ∧
    (∀ (env : LeafwayEnv) (ta : Rat) (maxA : Nat) (fromAddr mid : String)
        (rest : List String) (j a : Nat),
      a < maxA →
      (∀ b, b < a → env.fanoutSend j b = .txError) →
      env.fanoutSend j a = .sessionError →
      LeafwayMixer.fanoutGo env fromAddr ta maxA j (mid :: rest) =
        ((List.replicate a SendOutcome.txError ++
          [SendOutcome.sessionError]).map
            (fun o => Event.sendAttempt fromAddr mid ta o),
         .error (.sessionFailure fromAddr mid))) ∧
    (∀ (env : LeafwayEnv) (toAddr mid : String) (maxA : Nat)
        (rest : List String) (j a : Nat),
      env.midBalance j - env.midFee j > 0 →
      a < maxA →
      (∀ b, b < a → env.faninSend j b = .txError) →
      env.faninSend j a = .sessionError →
      LeafwayMixer.faninGo env toAddr maxA j (mid :: rest) =
        (Event.feeQuery mid :: Event.balanceQuery mid ::
          ((List.replicate a SendOutcome.txError ++
            [SendOutcome.sessionError]).map fun o =>
              Event.sendAttempt mid toAddr
                (env.midBalance j - env.midFee j) o),
         .error (.sessionFailure mid toAddr))) := by
  refine ⟨?_, ?_, ?_⟩
  · intro env amount maxA totalHops cur next rest i a hpre hlt hb hf
    have hrg := retryGo_fatal (env.send i) a maxA 0 hlt
      (fun b hba => by simpa using hb b hba) (by simpa using hf)
    simp [DominoMixer.startGo, hpre, hrg]
  · intro env ta maxA fromAddr mid rest j a hlt hb hf
    have hrg := retryGo_fatal (env.fanoutSend j) a maxA 0 hlt
      (fun b hba => by simpa using hb b hba) (by simpa using hf)
    simp [LeafwayMixer.fanoutGo, hrg]
  · intro env toAddr mid maxA rest j a hpos hlt hb hf
    have hrg := retryGo_fatal (env.faninSend j) a maxA 0 hlt
      (fun b hba => by simpa using hb b hba) (by simpa using hf)
    simp [LeafwayMixer.faninGo, hpos, hrg]

/-- Witness for C9: in environments whose first attempt raises
`TransactionException` and whose second raises a non-transaction error,
the Domino hop, the Leafway fan-out leg and the Leafway fan-in leg each
stop after those two attempts with the propagated `sessionFailure`. -/
theorem only_transaction_errors_retried_witness :
    DominoMixer.startGo dominoEnvFatal 5 3 2 "s" ["m", "d"] 0 =
      (Event.feeQuery "s" :: Event.balanceQuery "s" ::
        ((List.replicate 1 SendOutcome.txError ++
          [SendOutcome.sessionError]).map fun o =>
            Event.sendAttempt "s" "m" 5 o),
       .error (.sessionFailure "s" "m")) ∧
    LeafwayMixer.fanoutGo leafwayEnvFatal "s" 5 3 0 ["a", "b"] =
      ((List.replicate 1 SendOutcome.txError ++
        [SendOutcome.sessionError]).map
          (fun o => Event.sendAttempt "s" "a" 5 o),
       .error (.sessionFailure "s" "a")) ∧
    LeafwayMixer.faninGo leafwayEnvFatal "d" 3 0 ["a", "b"] =
      (Event.feeQuery "a" :: Event.balanceQuery "a" ::
        ((List.replicate 1 SendOutcome.txError ++
          [SendOutcome.sessionError]).map fun o =>
            Event.sendAttempt "a" "d"
              (leafwayEnvFatal.midBalance 0 - leafwayEnvFatal.midFee 0) o),
       .error (.sessionFailure "a" "d")) :=
  ⟨only_transaction_errors_retried.1 dominoEnvFatal 5 3 2 "s" "m" ["d"] 0 1
      (by norm_num [dominoEnvFatal]) (by norm_num)
      (fun b hb => by
        have hb0 : b = 0 := by omega
        subst hb0
        rfl)
      rfl,
   only_transaction_errors_retried.2.1 leafwayEnvFatal 5 3 "s" "a" ["b"] 0 1
      (by norm_num)
      (fun b hb => by
        have hb0 : b = 0 := by omega
        subst hb0
        rfl)
      rfl,
   only_transaction_errors_retried.2.2 leafwayEnvFatal "d" "a" 3 ["b"] 0 1
      (by norm_num [leafwayEnvFatal]) (by norm_num)
      (fun b hb => by
        have hb0 : b = 0 := by omega
        subst hb0
        rfl)
      rfl⟩

end XmrMixer
